import Mathlib

/-
  Verification development for `zip_media_time_sync.py`.

  The Python program extracts a ZIP archive and synchronizes media-file
  timestamps from Google-Photos-style JSON sidecar files.  This file gives a
  shallow embedding of the program's pure logic and of its effectful parts
  over an explicit filesystem state, and proves properties of the embedding.

  Modelling conventions:
  * Python exceptions are modelled with `Except String`; an uncaught exception
    is an `.error` value threaded outward.  Every modelled raise site occurs
    before the raising helper's own mutation, so an `.error` result carries no
    partial state of that helper (matching the source, where each helper's
    mutations happen only after all of its checks).
  * The filesystem is an association list from path strings to file entries.
    All entries are regular files (the scanner only ever inspects files).
  * Machine integers do not occur: Python ints are unbounded, modelled by
    `Int`/`Nat`; JSON numbers are modelled by `ℚ` (exact; the binary rounding
    of Python `float` is not modelled, no claim depends on it).
-/

/-! ## Python string primitives -/

/-- Split off the part of `cs` before the first occurrence of `sep`,
returning `none` when `sep` does not occur. -/
def splitFirst (sep : Char) : List Char → Option (List Char × List Char)
  | [] => none
  | c :: cs =>
    if c = sep then some ([], cs)
    else
      match splitFirst sep cs with
      | none => none
      | some (pre, rest) => some (c :: pre, rest)

/-- Split `cs` at `sep` from the left, performing at most `n` splits
(the semantics of Python `str.split(sep, n)` on the character list). -/
def splitMax (sep : Char) : Nat → List Char → List (List Char)
  | 0, cs => [cs]
  | Nat.succ m, cs =>
    match splitFirst sep cs with
    | none => [cs]
    | some (pre, rest) => pre :: splitMax sep m rest

/-- Python `str.rsplit(sep, maxsplit)`: split from the right, performing at
most `maxsplit` splits. -/
def pyRsplit (s : String) (sep : Char) (maxsplit : Nat) : List String :=
  ((splitMax sep maxsplit s.data.reverse).map (fun cs => String.mk cs.reverse)).reverse

/-- Python `str.split(sep)` with no limit on the number of splits. -/
def pySplitAll (sep : Char) (s : String) : List String :=
  (splitMax sep s.data.length s.data).map (fun cs => String.mk cs)

/-- Python `str.lower()` (ASCII case folding, via `Char.toLower`). -/
def pyLower (s : String) : String :=
  String.mk (s.data.map Char.toLower)

/-- Python `str.startswith` for a single-character prefix. -/
def pyStartsWith (s : String) (c : Char) : Bool :=
  match s.data with
  | c0 :: _ => c0 = c
  | [] => false

/-- Python `str.replace(old, new)` for single characters. -/
def pyReplace (s : String) (old new : Char) : String :=
  String.mk (s.data.map (fun c => if c = old then new else c))

/-- Final component of a path (`pathlib.PurePath.name`): the part after the
last slash. -/
def fileName (p : String) : String :=
  String.mk ((p.data.reverse.takeWhile (fun c => ¬ c = '/')).reverse)

/-- The leading part of a path up to and including the last slash (empty when
no slash occurs).  Two paths are in the same directory iff this agrees. -/
def dirPart (p : String) : String :=
  String.mk ((p.data.reverse.dropWhile (fun c => ¬ c = '/')).reverse)

/-- `pathlib.PurePath.with_name`: replace the final component of `p`. -/
def withName (p : String) (name : String) : String :=
  dirPart p ++ name

/-- `pathlib.PurePath.suffix` of a bare file name: `name[i:]` for the last
dot index `i` when `0 < i < len(name) - 1`, else the empty string. -/
def pySuffix (name : String) : String :=
  match splitFirst '.' name.data.reverse with
  | none => ""
  | some (aft, bef) =>
    if ¬ bef = [] ∧ ¬ aft = [] then String.mk ('.' :: aft.reverse) else ""

/-- `file_path.suffix` for a full path: the suffix of its final component. -/
def pySuffixOfPath (p : String) : String :=
  pySuffix (fileName p)

/-! ## Sidecar name derivation (`candidate_media_name_from_json`) -/

/-- Embedding of `candidate_media_name_from_json`.

Source: `split_text = json_filename.rsplit('.', 3)`, then
`if split_text[-1] == 'json' and split_text[1] != 'json': return
split_text[0] + '.' + split_text[1] else: return None`.

Python evaluates the conjunction left to right; when the list has a single
element (a dot-free filename) equal to `"json"`, the access `split_text[1]`
raises `IndexError`, modelled as `.error`.  Otherwise the result is
`.ok (some base)` or `.ok none`. -/
def candidate_media_name_from_json (json_filename : String) : Except String (Option String) :=
  let split_text := pyRsplit json_filename '.' 3
  match split_text with
  | [] => .error ("IndexError: list index out of range")
  | [only] =>
    if only = ("json") then .error ("IndexError: list index out of range")
    else .ok none
  | a :: b :: rest =>
    if (b :: rest).getLastD b = ("json") ∧ ¬ b = ("json") then
      .ok (some (a ++ (".") ++ b))
    else
      .ok none

/-! ## JSON values and timestamp extraction (`parse_timestamp_from_json`) -/

/-- Parsed JSON values as Python objects produced by `json.load`.
An `obj` is a Python dict; its keys are unique. -/
inductive PyVal where
  | null
  | bool (b : Bool)
  | num (q : ℚ)
  | str (s : String)
  | arr (xs : List PyVal)
  | obj (fields : List (String × PyVal))

/-- Python `dict.get`: the value at `key`, or `none` when absent. -/
def dictGet : List (String × PyVal) → String → Option PyVal
  | [], _ => none
  | (k, v) :: rest, key => if k = key then some v else dictGet rest key

/-- Numeric value of a digit string. -/
def digitsToNat (ds : List Char) : Nat :=
  ds.foldl (fun a c => a * 10 + (c.toNat - ('0').toNat)) 0

/-- Parse an unsigned decimal mantissa `digits [. digits]` from the front of
`cs`, returning its value and the remaining characters. -/
def parseMantissa (cs : List Char) : Option (ℚ × List Char) :=
  let intDigits := cs.takeWhile Char.isDigit
  let rest1 := cs.dropWhile Char.isDigit
  match rest1 with
  | '.' :: rest2 =>
    let fracDigits := rest2.takeWhile Char.isDigit
    let rest3 := rest2.dropWhile Char.isDigit
    if intDigits.isEmpty ∧ fracDigits.isEmpty then none
    else some ((digitsToNat intDigits : ℚ)
      + (digitsToNat fracDigits : ℚ) / ((10 : ℚ) ^ fracDigits.length), rest3)
  | _ =>
    if intDigits.isEmpty then none else some ((digitsToNat intDigits : ℚ), rest1)

/-- Parse an optional exponent part `(e|E) [+|-] digits` (which must consume
the whole remaining input). -/
def parseExponentPart (cs : List Char) : Option Int :=
  match cs with
  | [] => some 0
  | e :: rest =>
    if e = 'e' ∨ e = 'E' then
      let (sign, digits) : Int × List Char :=
        match rest with
        | '+' :: r => (1, r)
        | '-' :: r => (-1, r)
        | r => (1, r)
      if digits.isEmpty ∨ ¬ digits.all Char.isDigit then none
      else some (sign * (digitsToNat digits : Int))
    else none

/-- Value of Python `float(s)` on a string, as an exact rational.
Models the core of the Python float literal grammar: optional sign, decimal
mantissa, optional exponent (`inf`/`nan`/whitespace/underscores are not
modelled; no claim depends on them).  `none` models `ValueError`. -/
def parsePyFloat (s : String) : Option ℚ :=
  let (sign, body) : ℚ × List Char :=
    match s.data with
    | '+' :: r => (1, r)
    | '-' :: r => (-1, r)
    | r => (1, r)
  match parseMantissa body with
  | none => none
  | some (m, rest) =>
    match parseExponentPart rest with
    | none => none
    | some e => some (sign * m * (10 : ℚ) ^ e)

/-- Python `float(ts)` on an arbitrary value: numbers are returned, booleans
coerce to 0/1, numeric strings are parsed; anything else raises
(`none` models `TypeError`/`ValueError`). -/
def pyFloat : PyVal → Option ℚ
  | .num q => some q
  | .bool b => some (if b then 1 else 0)
  | .str s => parsePyFloat s
  | _ => none

/-- Python `int(q)` on a float value: truncation toward zero. -/
def truncQ (q : ℚ) : Int :=
  if q.num < 0 then -(Int.ofNat (q.num.natAbs / q.den)) else Int.ofNat (q.num.natAbs / q.den)

/-- The inner `extract` closure of `parse_timestamp_from_json`: given
`data.get(key)` (so `none` means the key was absent), return
`int(float(obj['timestamp']))` when `obj` is a dict with a non-`None`
`timestamp` member that converts, else `None`. -/
def extract : Option PyVal → Option Int
  | some (.obj fields) =>
    match dictGet fields ("timestamp") with
    | none => none
    | some .null => none
    | some ts => (pyFloat ts).map truncQ
  | _ => none

/-- Core of `parse_timestamp_from_json`, applied to the result of
`json.load` (`.error` argument models an exception while opening or parsing
the file, which the source catches, logs, and maps to `None`).

The source returns the pair only when both `extract` calls succeed, and
otherwise falls through to `return None`.  Calling `.get` on a non-dict
top-level value raises `AttributeError`, which the source does not catch. -/
def parseTimestampFromData (loaded : Except String PyVal) : Except String (Option (Int × Int)) :=
  match loaded with
  | .error _ => .ok none
  | .ok (.obj fields) =>
    match extract (dictGet fields ("photoTakenTime")), extract (dictGet fields ("creationTime")) with
    | some p, some c => .ok (some (p, c))
    | _, _ => .ok none
  | .ok _ => .error ("AttributeError: object has no attribute get")

/-- Specification-side extractor, following the spec's words: a top-level
key must be "present as an object whose `timestamp` field parses as a number
(truncated to integer seconds)".  Used to compare the code's extractor
against the specified contract. -/
def specTimestamp (fields : List (String × PyVal)) (key : String) : Option Int :=
  match dictGet fields key with
  | some (.obj inner) =>
    match dictGet inner ("timestamp") with
    | some v => (pyFloat v).map truncQ
    | none => none
  | _ => none

/-! ## Local time conversion and `strftime` formats -/

/-- A broken-down civil date-time, as produced by `datetime.fromtimestamp`. -/
structure DateTime where
  year : Int
  month : Nat
  day : Nat
  hour : Nat
  minute : Nat
  second : Nat
deriving DecidableEq

/-- Civil date from a day count relative to 1970-01-01 (proleptic Gregorian,
the standard days-to-civil algorithm). -/
def civilFromDays (z : Int) : Int × Nat × Nat :=
  let z' := z + 719468
  let era := Int.fdiv z' 146097
  let doe := (z' - era * 146097).toNat
  let yoe := (doe - doe / 1460 + doe / 36524 - doe / 146096) / 365
  let doy := doe - (365 * yoe + yoe / 4 - yoe / 100)
  let mp := (5 * doy + 2) / 153
  let d := doy - (153 * mp + 2) / 5 + 1
  let m := if mp < 10 then mp + 3 else mp - 9
  ((yoe : Int) + era * 400 + (if m ≤ 2 then 1 else 0), m, d)

/-- `datetime.fromtimestamp(ts)`: local civil time of a Unix timestamp.
The platform's local timezone enters as an offset in seconds east of UTC
(`datetime.fromtimestamp` uses the process's local timezone). -/
def fromtimestamp (tzOffset : Int) (ts : Int) : DateTime :=
  let t := ts + tzOffset
  let days := Int.fdiv t 86400
  let secs := (Int.fmod t 86400).toNat
  let ymd := civilFromDays days
  { year := ymd.1, month := ymd.2.1, day := ymd.2.2,
    hour := secs / 3600, minute := secs % 3600 / 60, second := secs % 60 }

/-- Zero-padded two-digit decimal. -/
def pad2 (n : Nat) : String :=
  if n < 10 then ("0") ++ toString n else toString n

/-- Four-digit zero-padded year (`%Y`). -/
def pad4i (n : Int) : String :=
  if n < 0 then toString n
  else
    let s := toString n
    String.mk (List.replicate (4 - s.length) '0') ++ s

/-- `dt.strftime("%Y:%m:%d %H:%M:%S")` (the EXIF date format). -/
def exifFormat (dt : DateTime) : String :=
  pad4i dt.year ++ (":") ++ pad2 dt.month ++ (":") ++ pad2 dt.day ++ (" ")
    ++ pad2 dt.hour ++ (":") ++ pad2 dt.minute ++ (":") ++ pad2 dt.second

/-- `dt.strftime("%Y-%m-%dT%H:%M:%S")` (the ISO-8601-like MP4 date format). -/
def isoFormat (dt : DateTime) : String :=
  pad4i dt.year ++ ("-") ++ pad2 dt.month ++ ("-") ++ pad2 dt.day ++ ("T")
    ++ pad2 dt.hour ++ (":") ++ pad2 dt.minute ++ (":") ++ pad2 dt.second

/-! ## Filesystem state -/

/-- The EXIF fields of a JPEG that the program touches.  `sceneType` may hold
an `Int` (as loaded) or a text encoding (after defensive normalization). -/
structure ExifData where
  dateTime : Option String := none
  dateTimeOriginal : Option String := none
  dateTimeDigitized : Option String := none
  sceneType : Option (Int ⊕ String) := none
deriving DecidableEq

/-- The MP4/MOV container tags the program touches: the creation-date tag
(`©day`) and the modification-date tag (`©mod`), each a list of strings. -/
structure MovieTags where
  day : Option (List String) := none
  mod : Option (List String) := none
deriving DecidableEq

/-- Content-level classification of a file.
* `jpeg`: an image `PIL.Image.open` accepts; `none` for the EXIF block means
  `piexif.load` fails on it (the source then falls back to an empty dict).
* `movie`: a container `mutagen.mp4.MP4` accepts, with its current tags.
* `json`: a sidecar; the payload is the result of `json.load` (`.error`
  models an unreadable or unparseable payload).
* `other`: any other regular file. -/
inductive FileKind where
  | jpeg (exif : Option ExifData)
  | movie (tags : MovieTags)
  | json (content : Except String PyVal)
  | other

/-- A regular file: filesystem times plus content-level state.  `ctime` is
the platform creation-time attribute (the Windows-only store). -/
structure FileEntry where
  mtime : Int
  atime : Int
  ctime : Int
  kind : FileKind

/-- The filesystem: an association list from absolute path strings to file
entries (first occurrence wins; paths are unique in well-formed states). -/
abbrev FS := List (String × FileEntry)

/-- Look up a path. -/
def lookupFile : FS → String → Option FileEntry
  | [], _ => none
  | (q, e) :: rest, p => if q = p then some e else lookupFile rest p

/-- Replace the entry at a path (no-op when the path is absent; the program
only ever writes to files it has just looked up). -/
def setFile : FS → String → FileEntry → FS
  | [], _, _ => []
  | (q, e) :: rest, p, e' => if q = p then (q, e') :: rest else (q, e) :: setFile rest p e'

/-- Remove the entry at a path (`Path.unlink(missing_ok=True)`; paths are
unique in well-formed states, so removing every occurrence is the same). -/
def delFile : FS → String → FS
  | [], _ => []
  | (q, e) :: rest, p => if q = p then delFile rest p else (q, e) :: delFile rest p

/-- `Path.exists()`. -/
def existsFile (fs : FS) (p : String) : Bool :=
  (lookupFile fs p).isSome

/-- Run-time configuration: the CLI flags plus the ambient capabilities the
module-level imports probe (`WINDOWS_AVAILABLE`, the `mutagen` import) and
the process's local timezone offset. -/
structure Config where
  dryRun : Bool
  caseInsensitive : Bool
  windowsAvailable : Bool
  mutagenAvailable : Bool
  tzOffset : Int

/-- The `UpdateResult` dataclass. -/
structure UpdateResult where
  media_path : String
  json_path : String
  timestamp : Int
  updated : Bool
  reason : String
deriving DecidableEq

/-! ## Timestamp writer -/

/-- The EXIF transformation `_update_jpeg_date` performs on the loaded EXIF
dict: write the formatted date into `DateTime` (306), `DateTimeOriginal`
(36867) and `DateTimeDigitized` (36868), then coerce an integer `SceneType`
to a text encoding before serialization.  A `none` input models a failing
`piexif.load`, for which the source falls back to an empty dict. -/
def jpegStamp (exif0 : Option ExifData) (date : String) : ExifData :=
  let e := exif0.getD {}
  let e1 := { e with dateTime := some date, dateTimeOriginal := some date,
                     dateTimeDigitized := some date }
  match e1.sceneType with
  | some (Sum.inl n) => { e1 with sceneType := some (Sum.inr (toString n)) }
  | _ => e1

/-- Embedding of `_update_jpeg_date`: re-save the image in place with the
stamped EXIF block (`quality=95`; the re-encode does not change the entry's
times here — the caller overwrites them with `os.utime` right after).
Opening a non-image raises, modelled as `.error`. -/
def _update_jpeg_date (fs : FS) (file_path : String) (dt : DateTime) : Except String FS :=
  match lookupFile fs file_path with
  | some entry =>
    match entry.kind with
    | .jpeg exif0 =>
      .ok (setFile fs file_path { entry with kind := .jpeg (some (jpegStamp exif0 (exifFormat dt))) })
    | _ => .error ("cannot identify image file " ++ file_path)
  | none => .error ("No such file or directory: " ++ file_path)

/-- Embedding of `_update_movie_date`: write the ISO-formatted date into the
container's creation-date tag and modification-date tag and save.  The
`mutagen` import happens first and raises when the library is missing. -/
def _update_movie_date (cfg : Config) (fs : FS) (file_path : String) (dt : DateTime) : Except String FS :=
  if ¬ cfg.mutagenAvailable then
    .error ("mutagen library is required for movie file support. Install it with: pip install mutagen")
  else
    match lookupFile fs file_path with
    | some entry =>
      match entry.kind with
      | .movie _ =>
        .ok (setFile fs file_path
          { entry with kind := .movie { day := some [isoFormat dt], mod := some [isoFormat dt] } })
      | _ => .error ("not a MP4 file " ++ file_path)
    | none => .error ("No such file or directory: " ++ file_path)

/-- Embedding of `update_date_taken`: check existence, convert the timestamp
to local civil time, dispatch on the lower-cased extension (JPEG vs movie
container, anything else raising `ValueError`), then set the file's modify
and access times to the timestamp with `os.utime`. -/
def update_date_taken (cfg : Config) (fs : FS) (file_path : String) (timestamp : Int) : Except String FS :=
  match lookupFile fs file_path with
  | none => .error ("File not found: " ++ file_path)
  | some _ =>
    let dt := fromtimestamp cfg.tzOffset timestamp
    let ext := pyLower (pySuffixOfPath file_path)
    let stepResult : Except String FS :=
      if ext = (".jpg") ∨ ext = (".jpeg") then _update_jpeg_date fs file_path dt
      else if ext = (".mp4") ∨ ext = (".mov") ∨ ext = (".m4v") ∨ ext = (".3gp") then
        _update_movie_date cfg fs file_path dt
      else .error ("Unsupported file type: " ++ ext ++ ". Supported formats: JPEG, MP4, MOV, M4V, 3GP")
    match stepResult with
    | .error e => .error e
    | .ok fs1 =>
      match lookupFile fs1 file_path with
      | some e1 => .ok (setFile fs1 file_path { e1 with mtime := timestamp, atime := timestamp })
      | none => .error ("No such file or directory: " ++ file_path)

/-- Embedding of `update_creation_date`: check existence, require pywin32,
then set only the platform creation-time attribute, restoring the access and
write times read from the handle (so they are unchanged). -/
def update_creation_date (cfg : Config) (fs : FS) (file_path : String) (new_date : Int) : Except String FS :=
  match lookupFile fs file_path with
  | none => .error ("File not found: " ++ file_path)
  | some entry =>
    if ¬ cfg.windowsAvailable then
      .error ("pywin32 is required for Windows. Install with: pip install pywin32")
    else
      .ok (setFile fs file_path { entry with ctime := new_date })

/-- Embedding of `apply_timestamp_to_file`: on dry-run, report without
touching anything; otherwise run `update_date_taken` then
`update_creation_date`, catching any exception into a failure reason.  The
state reached before the raise persists (Python has no rollback). -/
def apply_timestamp_to_file (cfg : Config) (fs : FS) (media_path : String)
    (photo_taken_time creation_time : Int) (dry_run : Bool) : FS × Bool × String :=
  if dry_run then (fs, false, ("dry-run"))
  else
    match update_date_taken cfg fs media_path photo_taken_time with
    | .error e => (fs, false, e)
    | .ok fs1 =>
      match update_creation_date cfg fs1 media_path creation_time with
      | .error e => (fs1, false, e)
      | .ok fs2 => (fs2, true, (""))

/-! ## Sidecar resolution and the scan orchestrator -/

/-- Embedding of `find_matching_media`: derive the candidate media name from
the sidecar's file name (an `IndexError` propagates), try the exact
same-directory path, then — only with `--case-insensitive` — a unique
case-insensitive match among the files of the sidecar's directory. -/
def find_matching_media (cfg : Config) (fs : FS) (json_path : String) : Except String (Option String) :=
  match candidate_media_name_from_json (fileName json_path) with
  | .error e => .error e
  | .ok none => .ok none
  | .ok (some candidate_name) =>
    let direct_candidate := withName json_path candidate_name
    if existsFile fs direct_candidate then .ok (some direct_candidate)
    else if ¬ cfg.caseInsensitive then .ok none
    else
      let lower_candidate := pyLower candidate_name
      let matchList := fs.filterMap (fun pe =>
        if dirPart pe.1 = dirPart json_path ∧ pyLower (fileName pe.1) = lower_candidate
        then some pe.1 else none)
      match matchList with
      | [m] => .ok (some m)
      | _ => .ok none

/-- Embedding of `parse_timestamp_from_json` as run against the filesystem:
open the sidecar (a missing or non-JSON file makes `open`/`json.load` raise,
which the source catches and maps to `None`) and extract the pair. -/
def parse_timestamp_from_json (fs : FS) (json_path : String) : Except String (Option (Int × Int)) :=
  match lookupFile fs json_path with
  | some entry =>
    match entry.kind with
    | .json content => parseTimestampFromData content
    | _ => .ok none
  | none => .ok none

/-- Embedding of `delete_json_file` (`unlink(missing_ok=True)`). -/
def delete_json_file (fs : FS) (json_path : String) : FS :=
  delFile fs json_path

/-- One iteration of the `scan_and_update` loop body for a single sidecar
path.  Note the source's unpacking
`photo_taken_time, creation_time = parse_timestamp_from_json(json_path)`:
when the parser returns `None` (extraction failed), unpacking `None` raises
`TypeError: cannot unpack non-iterable NoneType object`, which nothing
catches — the guard `if photo_taken_time is None and creation_time is None`
on the next line is unreachable, because a successfully unpacked pair always
holds two ints.  The `no-timestamp` outcome is therefore never produced. -/
def processSidecar (cfg : Config) (fs : FS) (json_path : String) :
    FS × Except String (Option UpdateResult) :=
  match find_matching_media cfg fs json_path with
  | .error e => (fs, .error e)
  | .ok none => (fs, .ok none)
  | .ok (some media_path) =>
    match parse_timestamp_from_json fs json_path with
    | .error e => (fs, .error e)
    | .ok none => (fs, .error ("TypeError: cannot unpack non-iterable NoneType object"))
    | .ok (some (photo_taken_time, _creation_time)) =>
      match apply_timestamp_to_file cfg fs media_path photo_taken_time _creation_time cfg.dryRun with
      | (fs1, true, _) =>
        (delete_json_file fs1 json_path,
         .ok (some { media_path := media_path, json_path := json_path,
                     timestamp := photo_taken_time, updated := true, reason := ("") }))
      | (fs1, false, err) =>
        if err = ("dry-run") then
          (fs1, .ok (some { media_path := media_path, json_path := json_path,
                            timestamp := photo_taken_time, updated := false, reason := ("dry-run") }))
        else
          (fs1, .ok (some { media_path := media_path, json_path := json_path,
                            timestamp := photo_taken_time, updated := false, reason := err }))

/-- Embedding of `scan_and_update`.  The recursive walk (`rglob('*.json')`)
is abstracted as the list of sidecar paths it yields, in walk order; the
processing of each is `processSidecar`.  An uncaught exception aborts the
scan: the world state reached so far survives, the accumulated outcome list
is lost (the Python function never returns). -/
def scan_and_update (cfg : Config) (fs : FS) : List String → FS × Except String (List UpdateResult)
  | [] => (fs, .ok [])
  | j :: rest =>
    match processSidecar cfg fs j with
    | (fs1, .error e) => (fs1, .error e)
    | (fs1, .ok r?) =>
      match scan_and_update cfg fs1 rest with
      | (fs2, .error e) => (fs2, .error e)
      | (fs2, .ok rs) => (fs2, .ok (r?.toList ++ rs))

/-! ## The CLI driver (`main`) -/

/-- The outcomes the summary counts as failures:
`not r.updated and r.reason not in ('dry-run', 'no-timestamp')`. -/
def isFailureOutcome (r : UpdateResult) : Bool :=
  !r.updated && !(r.reason == ("dry-run")) && !(r.reason == ("no-timestamp"))

/-- The environment `main` runs against: the up-front filesystem checks and
the two archive-handling steps are abstracted to their success booleans (they
are external collaborators per the spec); the extracted tree and the walk
order feed the scan. -/
structure MainEnv where
  zipExists : Bool
  zipIsFile : Bool
  mkdirOk : Bool
  extractOk : Bool
  cfg : Config
  fs : FS
  jsonPaths : List String

/-- Embedding of `main`: validate the archive path (exit 2 on failure),
create the extraction directory and extract (exit 2 on failure), scan, and
exit 1 when any outcome counts as a failure, else 0.  An exception escaping
the scan is uncaught (`.error`). -/
def mainModel (env : MainEnv) : Except String Nat :=
  if !env.zipExists then .ok 2
  else if !env.zipIsFile then .ok 2
  else if !env.mkdirOk then .ok 2
  else if !env.extractOk then .ok 2
  else
    match scan_and_update env.cfg env.fs env.jsonPaths with
    | (_, .error e) => .error e
    | (_, .ok results) =>
      let failures := results.countP (fun r => isFailureOutcome r)
      .ok (if failures = 0 then 0 else 1)

/-- The outcome a completed dry-run scan produces for one sidecar path: a
`dry-run` record when a media file matches and both timestamps extract,
nothing when no media matches. -/
def dryOutcome (cfg : Config) (fs : FS) (json_path : String) : Option UpdateResult :=
  match find_matching_media cfg fs json_path with
  | .ok (some media_path) =>
    match parse_timestamp_from_json fs json_path with
    | .ok (some (photo_taken_time, _)) =>
      some { media_path := media_path, json_path := json_path,
             timestamp := photo_taken_time, updated := false, reason := ("dry-run") }
    | _ => none
  | _ => none

/-! ## Safe ZIP extraction (`safe_extract_zip`) -/

/-- Segments of a path string as `pathlib` parses it: split on slashes,
dropping empty segments and `.` (`..` is kept). -/
def pathlibSegs (s : String) : List String :=
  (pySplitAll '/' s).filter (fun seg => ¬ (seg = ("") ∨ seg = (".")))

/-- Lexical `Path.resolve(strict=False)` on a segment list of an absolute
path: `.` and empty segments vanish, `..` removes the previous segment (at
the root it vanishes).  The extraction directory is freshly created, so no
symlinks can occur under it and resolution is lexical. -/
def resolveSegs (segs : List String) : List String :=
  segs.foldl (fun acc seg =>
    if seg = ("") ∨ seg = (".") then acc
    else if seg = ("..") then acc.dropLast
    else acc ++ [seg]) []

/-- `os.path.commonpath` on two absolute paths, segment-wise: the longest
common prefix. -/
def commonpath : List String → List String → List String
  | a :: as, b :: bs => if a = b then a :: commonpath as bs else []
  | _, _ => []

/-- Embedding of `_is_within_directory`: resolve both paths and test whether
their common path is the directory itself. -/
def _is_within_directory (directory target : List String) : Bool :=
  commonpath (resolveSegs directory) (resolveSegs target) == resolveSegs directory

/-- A ZIP archive member as `zipfile` reports it. -/
structure ZipMember where
  filename : String
  is_dir : Bool

/-- Embedding of `safe_extract_zip`, returning the list of file paths
(segment lists under the destination) whose contents get written.  Per
member: normalize backslashes, skip absolute names, skip names whose
resolved target is not within the destination, create (not write) plain
directories, and otherwise write the file. -/
def safe_extract_zip (destination : List String) (members : List ZipMember) : List (List String) :=
  members.filterMap (fun member =>
    let member_name := pyReplace member.filename '\\' '/'
    if pyStartsWith member_name '/' then none
    else
      let dest_path := destination ++ pathlibSegs member_name
      if ¬ _is_within_directory destination dest_path then none
      else if member.is_dir then none
      else some dest_path)

/-! ## Concrete sample states -/

/-- Default run configuration: no dry-run, exact-case matching, pywin32 and
mutagen available, UTC as the local timezone. -/
def cfgStd : Config := ⟨false, false, true, true, 0⟩

/-- Like `cfgStd` but with pywin32 unavailable (a non-Windows host). -/
def cfgNoWin : Config := ⟨false, false, false, true, 0⟩

/-- Like `cfgStd` but with `--dry-run` set. -/
def cfgDry : Config := ⟨true, false, true, true, 0⟩

/-- A well-formed sidecar payload: both keys present with numeric
`timestamp` members. -/
def jsonGood : Except String PyVal :=
  .ok (.obj [(("photoTakenTime"), .obj [(("timestamp"), .num 100)]),
             (("creationTime"), .obj [(("timestamp"), .num 200)])])

/-- A JPEG next to its sidecar. -/
def fsJpeg : FS :=
  [(("d/photo.jpg"), ⟨10, 11, 12, .jpeg (some {})⟩),
   (("d/photo.jpg.json"), ⟨1, 1, 1, .json jsonGood⟩)]

/-- A JPEG next to a sidecar whose payload is an empty JSON object (both
timestamp keys missing). -/
def fsJpegEmpty : FS :=
  [(("d/photo.jpg"), ⟨10, 11, 12, .jpeg (some {})⟩),
   (("d/photo.jpg.json"), ⟨1, 1, 1, .json (.ok (.obj []))⟩)]

/-- A movie container next to its sidecar. -/
def fsMov : FS :=
  [(("d/clip.mov"), ⟨10, 11, 12, .movie {}⟩),
   (("d/clip.mov.json"), ⟨1, 1, 1, .json jsonGood⟩)]

/-- Observer: the creation-date tag (`©day`) of the container at `p`. -/
def movieDayOf (fs : FS) (p : String) : Option (List String) :=
  match lookupFile fs p with
  | some e =>
    match e.kind with
    | .movie t => t.day
    | _ => none
  | none => none

/-- The scan record for the successful jpeg sample pair. -/
def recJpegSuccess : UpdateResult :=
  ⟨("d/photo.jpg"), ("d/photo.jpg.json"), 100, true, ("")⟩

/-- The jpeg sample filesystem after `update_date_taken` alone. -/
def fsJpegUpdated : FS :=
  setFile fsJpeg ("d/photo.jpg")
    ⟨100, 100, 12, .jpeg (some (jpegStamp (some {}) (exifFormat (fromtimestamp 0 100))))⟩

/-- A sample member list: a plain file, a traversal escape, an absolute
path, a deeper escape, a directory, and a `..` that stays inside. -/
def zipMembersSample : List ZipMember :=
  [⟨("ok/file.txt"), false⟩, ⟨("../evil.txt"), false⟩, ⟨("/abs.txt"), false⟩,
   ⟨("a/../../evil2"), false⟩, ⟨("sub/"), true⟩, ⟨("a/../inside.txt"), false⟩]

/-! ## Helper lemmas -/

theorem stringMk_data (s : String) : String.mk s.data = s := rfl

theorem splitFirst_of_not_mem (sep : Char) (xs : List Char) (h : sep ∉ xs) :
    splitFirst sep xs = none := by
  induction xs with
  | nil => rfl
  | cons c cs ih =>
    simp only [List.mem_cons, not_or] at h
    simp only [splitFirst, if_neg (fun hc : _ = sep => h.1 hc.symm), ih h.2]

theorem splitFirst_append (sep : Char) (xs ys : List Char) (h : sep ∉ xs) :
    splitFirst sep (xs ++ sep :: ys) = some (xs, ys) := by
  induction xs with
  | nil => simp [splitFirst]
  | cons c cs ih =>
    simp only [List.mem_cons, not_or] at h
    have hstep : (c :: cs) ++ sep :: ys = c :: (cs ++ sep :: ys) := rfl
    rw [hstep, splitFirst, if_neg (fun hc : _ = sep => h.1 hc.symm), ih h.2]

theorem splitMax_succ_append (sep : Char) (n : Nat) (xs ys : List Char) (h : sep ∉ xs) :
    splitMax sep (Nat.succ n) (xs ++ sep :: ys) = xs :: splitMax sep n ys := by
  simp only [splitMax, splitFirst_append sep xs ys h]

theorem splitMax_of_not_mem (sep : Char) (n : Nat) (xs : List Char) (h : sep ∉ xs) :
    splitMax sep n xs = [xs] := by
  cases n with
  | zero => rfl
  | succ m => simp only [splitMax, splitFirst_of_not_mem sep xs h]

theorem pyRsplit_two (a b : String) (ha : '.' ∉ a.data) (hb : '.' ∉ b.data) :
    pyRsplit (a ++ (".") ++ b) '.' 3 = [a, b] := by
  have h3 : (3 : Nat) = Nat.succ 2 := rfl
  have hrev : (a ++ (".") ++ b).data.reverse
      = b.data.reverse ++ '.' :: a.data.reverse := by
    simp [String.data_append]
  rw [pyRsplit, hrev, h3, splitMax_succ_append _ _ _ _ (by simpa using hb),
    splitMax_of_not_mem _ _ _ (by simpa using ha)]
  simp [stringMk_data]

theorem pyRsplit_three (a b c : String) (ha : '.' ∉ a.data) (hb : '.' ∉ b.data)
    (hc : '.' ∉ c.data) :
    pyRsplit (a ++ (".") ++ b ++ (".") ++ c) '.' 3 = [a, b, c] := by
  have h3 : (3 : Nat) = Nat.succ 2 := rfl
  have hrev : (a ++ (".") ++ b ++ (".") ++ c).data.reverse
      = c.data.reverse ++ '.' :: (b.data.reverse ++ '.' :: a.data.reverse) := by
    simp [String.data_append]
  rw [pyRsplit, hrev, h3,
    splitMax_succ_append _ _ _ _ (by simpa using hc),
    splitMax_succ_append _ _ _ _ (by simpa using hb),
    splitMax_of_not_mem _ _ _ (by simpa using ha)]
  simp [stringMk_data]

theorem pyRsplit_four (a b c d : String) (hb : '.' ∉ b.data)
    (hc : '.' ∉ c.data) (hd : '.' ∉ d.data) :
    pyRsplit (a ++ (".") ++ b ++ (".") ++ c ++ (".") ++ d) '.' 3 = [a, b, c, d] := by
  have h3 : (3 : Nat) = Nat.succ 2 := rfl
  have hrev : (a ++ (".") ++ b ++ (".") ++ c ++ (".") ++ d).data.reverse
      = d.data.reverse ++ '.' :: (c.data.reverse ++ '.' ::
          (b.data.reverse ++ '.' :: a.data.reverse)) := by
    simp [String.data_append]
  rw [pyRsplit, hrev, h3,
    splitMax_succ_append _ _ _ _ (by simpa using hd),
    splitMax_succ_append _ _ _ _ (by simpa using hc),
    splitMax_succ_append _ _ _ _ (by simpa using hb)]
  simp [splitMax, stringMk_data]

/-- Claim C5: for sidecar filenames `<name>.<ext>.json` and
`<name>.<ext>.<marker>.json` built from dot-free segments, with the
degenerate-case guard not firing (`ext ≠ "json"`), the derived candidate
media name is exactly `<name>.<ext>`. -/
theorem claim5_candidate_name (name ext marker : String)
    (hn : '.' ∉ name.data) (he : '.' ∉ ext.data) (hm : '.' ∉ marker.data)
    (hguard : ¬ ext = ("json")) :
    candidate_media_name_from_json (name ++ (".") ++ ext ++ (".json"))
      = .ok (some (name ++ (".") ++ ext))
    ∧ candidate_media_name_from_json (name ++ (".") ++ ext ++ (".") ++ marker ++ (".json"))
      = .ok (some (name ++ (".") ++ ext)) := by
  have hjson : '.' ∉ ("json" : String).data := by decide
  have e1 : name ++ (".") ++ ext ++ (".json")
      = name ++ (".") ++ ext ++ (".") ++ ("json") := by
    rw [String.append_assoc (name ++ (".") ++ ext)]
    rfl
  have e2 : name ++ (".") ++ ext ++ (".") ++ marker ++ (".json")
      = name ++ (".") ++ ext ++ (".") ++ marker ++ (".") ++ ("json") := by
    rw [String.append_assoc (name ++ (".") ++ ext ++ (".") ++ marker)]
    rfl
  constructor
  · rw [e1]
    simp [candidate_media_name_from_json, pyRsplit_three name ext ("json") hn he hjson, hguard]
  · rw [e2]
    simp [candidate_media_name_from_json, pyRsplit_four name ext marker ("json") he hm hjson, hguard]

/-- Witness for C5 at the concrete filenames `IMG001.jpg.json` and
`IMG001.jpg.supplemental-metadata.json`. -/
theorem claim5_candidate_name_witness :
    candidate_media_name_from_json ("IMG001.jpg.json") = .ok (some ("IMG001.jpg"))
    ∧ candidate_media_name_from_json ("IMG001.jpg.supplemental-metadata.json")
      = .ok (some ("IMG001.jpg")) :=
  claim5_candidate_name ("IMG001") ("jpg") ("supplemental-metadata")
    (by decide) (by decide) (by decide) (by decide)

/-- Counterexample to claim C3 as stated: `a.b.json.json` has two or more
dots before the final `.json` and its second-to-last dot-delimited segment is
the literal `json`, yet derivation does not return absent — it returns the
candidate `a.b`, because the source's guard tests `split_text[1]` (the second
element from the left of the at-most-four-way right-split), which here is
`b`, not the second-to-last segment. -/
theorem claim3_counterexample :
    candidate_media_name_from_json ("a.b.json.json") = .ok (some ("a.b"))
    ∧ ¬ candidate_media_name_from_json ("a.b.json.json") = .ok none := by
  refine ⟨rfl, fun h => ?_⟩
  rw [show candidate_media_name_from_json ("a.b.json.json")
      = Except.ok (some ("a.b")) from rfl] at h
  simp at h

/-- Claim C3 (amended): the degenerate-case guard fires exactly when the
second element of the right-split-into-at-most-four segments is `json`; thus
derivation returns absent for `<name>.json.json` (and `<name>.json`) with
`<name>` dot-free, while `<name>.<ext>.json.json` with `<ext> ≠ "json"`
instead yields the candidate `<name>.<ext>`. -/
theorem claim3_degenerate_guard (name : String) (hn : '.' ∉ name.data) :
    candidate_media_name_from_json (name ++ (".json.json")) = .ok none
    ∧ candidate_media_name_from_json (name ++ (".json")) = .ok none := by
  have hjson : '.' ∉ ("json" : String).data := by decide
  have e1 : name ++ (".json.json") = name ++ (".") ++ ("json") ++ (".") ++ ("json") := by
    rw [String.append_assoc, String.append_assoc, String.append_assoc]
    rfl
  constructor
  · rw [e1]
    simp [candidate_media_name_from_json, pyRsplit_three name ("json") ("json") hn hjson hjson]
  · have e2 : name ++ (".json") = name ++ (".") ++ ("json") := by
      rw [String.append_assoc]
      rfl
    rw [e2]
    simp [candidate_media_name_from_json, pyRsplit_two name ("json") hn hjson]

/-- Witness for the amended C3 at the concrete filenames `photo.json.json`
and `photo.json`. -/
theorem claim3_degenerate_guard_witness :
    candidate_media_name_from_json ("photo.json.json") = .ok none
    ∧ candidate_media_name_from_json ("photo.json") = .ok none :=
  claim3_degenerate_guard ("photo") (by decide)

theorem extract_eq_spec (fields : List (String × PyVal)) (key : String) :
    extract (dictGet fields key) = specTimestamp fields key := by
  cases h : dictGet fields key with
  | none => simp [extract, specTimestamp, h]
  | some v =>
    cases v with
    | obj inner =>
      cases h2 : dictGet inner ("timestamp") with
      | none => simp [extract, specTimestamp, h, h2]
      | some w => cases w <;> simp [extract, specTimestamp, h, h2, pyFloat]
    | null => simp [extract, specTimestamp, h]
    | bool b => simp [extract, specTimestamp, h]
    | num q => simp [extract, specTimestamp, h]
    | str s => simp [extract, specTimestamp, h]
    | arr xs => simp [extract, specTimestamp, h]

/-- Claim C6: on a sidecar JSON object, the extractor returns precisely the
pair of truncated integer timestamps when both top-level keys are present as
objects whose `timestamp` member parses as a number, and absent otherwise —
never a partial single-timestamp result. -/
theorem claim6_extractor_both_or_nothing (fields : List (String × PyVal)) :
    parseTimestampFromData (.ok (.obj fields))
      = .ok (match specTimestamp fields ("photoTakenTime"),
                   specTimestamp fields ("creationTime") with
             | some p, some c => some (p, c)
             | _, _ => none) := by
  simp only [parseTimestampFromData, extract_eq_spec]
  cases specTimestamp fields ("photoTakenTime") <;>
    cases specTimestamp fields ("creationTime") <;> rfl

/-! ## Filesystem lemmas -/

theorem lookupFile_setFile_self (fs : FS) (p : String) (e0 e : FileEntry)
    (h : lookupFile fs p = some e0) : lookupFile (setFile fs p e) p = some e := by
  induction fs with
  | nil => simp [lookupFile] at h
  | cons pe rest ih =>
    by_cases hq : pe.1 = p
    · simp [lookupFile, setFile, hq]
    · simp only [lookupFile, setFile, if_neg hq] at h ⊢
      exact ih h

theorem lookupFile_setFile_ne (fs : FS) (p q : String) (e : FileEntry)
    (h : ¬ q = p) : lookupFile (setFile fs p e) q = lookupFile fs q := by
  induction fs with
  | nil => rfl
  | cons pe rest ih =>
    by_cases hq : pe.1 = p
    · subst hq
      simp [lookupFile, setFile, if_neg (fun hc : pe.1 = q => h hc.symm)]
    · simp only [setFile, if_neg hq, lookupFile]
      split
      · rfl
      · exact ih

theorem setFile_setFile (fs : FS) (p : String) (a b : FileEntry) :
    setFile (setFile fs p a) p b = setFile fs p b := by
  induction fs with
  | nil => rfl
  | cons pe rest ih =>
    by_cases hq : pe.1 = p
    · simp [setFile, hq]
    · simp [setFile, hq, ih]

theorem lookupFile_delFile_self (fs : FS) (p : String) :
    lookupFile (delFile fs p) p = none := by
  induction fs with
  | nil => rfl
  | cons pe rest ih =>
    by_cases hq : pe.1 = p
    · simp [delFile, hq, ih]
    · simp [delFile, lookupFile, hq, ih]

theorem lookupFile_delFile_ne (fs : FS) (p q : String) (h : ¬ q = p) :
    lookupFile (delFile fs p) q = lookupFile fs q := by
  induction fs with
  | nil => rfl
  | cons pe rest ih =>
    by_cases hq : pe.1 = p
    · subst hq
      simp [delFile, lookupFile, if_neg (fun hc : pe.1 = q => h hc.symm), ih]
    · simp only [delFile, if_neg hq, lookupFile]
      split
      · rfl
      · exact ih

theorem update_creation_date_ok (cfg : Config) (fs : FS) (p : String) (ct : Int) (fs2 : FS)
    (h : update_creation_date cfg fs p ct = .ok fs2) :
    ∃ e, lookupFile fs p = some e ∧ cfg.windowsAvailable = true
      ∧ fs2 = setFile fs p { e with ctime := ct } := by
  unfold update_creation_date at h
  cases hl : lookupFile fs p with
  | none => rw [hl] at h; simp at h
  | some e =>
    rw [hl] at h
    by_cases hw : cfg.windowsAvailable = true
    · refine ⟨e, rfl, hw, ?_⟩
      simp [hw] at h
      exact h.symm
    · simp [hw] at h

theorem update_date_taken_movie_trace (cfg : Config) (fs : FS) (p : String) (ts : Int)
    (fs1 : FS) (h : update_date_taken cfg fs p ts = .ok fs1)
    (hext : pyLower (pySuffixOfPath p) = (".mov") ∨ pyLower (pySuffixOfPath p) = (".mp4")) :
    ∃ e0 tags, lookupFile fs p = some e0 ∧ e0.kind = .movie tags
      ∧ fs1 = setFile fs p { e0 with
          mtime := ts
          atime := ts
          kind := .movie { day := some [isoFormat (fromtimestamp cfg.tzOffset ts)],
                           mod := some [isoFormat (fromtimestamp cfg.tzOffset ts)] } } := by
  unfold update_date_taken at h
  cases hl : lookupFile fs p with
  | none => rw [hl] at h; simp at h
  | some e0 =>
    rw [hl] at h
    rcases hext with h1 | h1 <;>
    · rw [h1] at h
      by_cases hm : cfg.mutagenAvailable = true
      · simp only [_update_movie_date, hm] at h
        rw [hl] at h
        cases hk : e0.kind with
        | movie tags =>
          simp only [hk] at h
          simp at h
          rw [lookupFile_setFile_self fs p e0 _ hl] at h
          simp only [Except.ok.injEq] at h
          refine ⟨e0, tags, rfl, hk, ?_⟩
          rw [← h, setFile_setFile]
        | jpeg ex => simp [hk] at h
        | json c => simp [hk] at h
        | other => simp [hk] at h
      · simp [_update_movie_date, hm] at h

theorem update_date_taken_jpeg_trace (cfg : Config) (fs : FS) (p : String) (ts : Int)
    (fs1 : FS) (h : update_date_taken cfg fs p ts = .ok fs1)
    (hext : pyLower (pySuffixOfPath p) = (".jpg") ∨ pyLower (pySuffixOfPath p) = (".jpeg")) :
    ∃ e0 ex0, lookupFile fs p = some e0 ∧ e0.kind = .jpeg ex0
      ∧ fs1 = setFile fs p { e0 with
          mtime := ts
          atime := ts
          kind := .jpeg (some (jpegStamp ex0 (exifFormat (fromtimestamp cfg.tzOffset ts)))) } := by
  unfold update_date_taken at h
  cases hl : lookupFile fs p with
  | none => rw [hl] at h; simp at h
  | some e0 =>
    rw [hl] at h
    rcases hext with h1 | h1 <;>
    · rw [h1] at h
      simp only [_update_jpeg_date] at h
      rw [hl] at h
      cases hk : e0.kind with
      | jpeg ex0 =>
        simp only [hk] at h
        simp at h
        rw [lookupFile_setFile_self fs p e0 _ hl] at h
        simp only [Except.ok.injEq] at h
        refine ⟨e0, ex0, rfl, hk, ?_⟩
        rw [← h, setFile_setFile]
      | movie tags => simp [hk] at h
      | json c => simp [hk] at h
      | other => simp [hk] at h

theorem _update_jpeg_date_ok_shape (fs : FS) (p : String) (dt : DateTime) (fs' : FS)
    (h : _update_jpeg_date fs p dt = .ok fs') : ∃ e, fs' = setFile fs p e := by
  unfold _update_jpeg_date at h
  repeat split at h
  all_goals simp_all
  exact ⟨_, h.symm⟩

theorem _update_movie_date_ok_shape (cfg : Config) (fs : FS) (p : String) (dt : DateTime)
    (fs' : FS) (h : _update_movie_date cfg fs p dt = .ok fs') : ∃ e, fs' = setFile fs p e := by
  unfold _update_movie_date at h
  split at h
  · simp at h
  · split at h
    · split at h
      · simp only [Except.ok.injEq] at h
        exact ⟨_, h.symm⟩
      · simp at h
    · simp at h

theorem update_date_taken_ok_shape (cfg : Config) (fs : FS) (p : String) (ts : Int) (fs1 : FS)
    (h : update_date_taken cfg fs p ts = .ok fs1) : ∃ e, fs1 = setFile fs p e := by
  unfold update_date_taken at h
  cases hl : lookupFile fs p with
  | none => rw [hl] at h; simp at h
  | some e0 =>
    rw [hl] at h
    simp only [] at h
    split at h
    · simp at h
    · rename_i fsa heq
      have hshape : ∃ e, fsa = setFile fs p e := by
        split at heq
        · exact _update_jpeg_date_ok_shape fs p _ fsa heq
        · split at heq
          · exact _update_movie_date_ok_shape cfg fs p _ fsa heq
          · simp at heq
      rcases hshape with ⟨e, rfl⟩
      split at h
      · simp only [Except.ok.injEq] at h
        exact ⟨_, by rw [← h, setFile_setFile]⟩
      · simp at h

theorem apply_false_true_elim (cfg : Config) (fs : FS) (p : String) (pt ct : Int)
    (fs1 : FS) (s : String)
    (h : apply_timestamp_to_file cfg fs p pt ct false = (fs1, true, s)) :
    ∃ fsa, update_date_taken cfg fs p pt = .ok fsa
      ∧ update_creation_date cfg fsa p ct = .ok fs1 ∧ s = ("") := by
  unfold apply_timestamp_to_file at h
  simp only [Bool.false_eq_true, if_false] at h
  split at h
  · simp at h
  · rename_i fsa heq
    split at h
    · simp at h
    · rename_i fs2 heq2
      simp only [Prod.mk.injEq] at h
      exact ⟨fsa, heq, h.1 ▸ heq2, h.2.2.symm⟩

theorem parse_ok_some_shape (fs : FS) (j : String) (pt ct : Int)
    (h : parse_timestamp_from_json fs j = .ok (some (pt, ct))) :
    ∃ je c, lookupFile fs j = some je ∧ je.kind = .json c := by
  unfold parse_timestamp_from_json at h
  cases hl : lookupFile fs j with
  | none => rw [hl] at h; simp at h
  | some je =>
    rw [hl] at h
    cases hk : je.kind with
    | json c => exact ⟨je, c, rfl, hk⟩
    | jpeg ex => simp [hk] at h
    | movie t => simp [hk] at h
    | other => simp [hk] at h

theorem update_date_taken_ok_full (cfg : Config) (fs : FS) (p : String) (ts : Int) (fs1 : FS)
    (h : update_date_taken cfg fs p ts = .ok fs1) :
    ∃ e0 e, lookupFile fs p = some e0 ∧ fs1 = setFile fs p e
      ∧ ∀ c, ¬ e0.kind = FileKind.json c := by
  rcases update_date_taken_ok_shape cfg fs p ts fs1 h with ⟨e, hshape⟩
  unfold update_date_taken at h
  cases hl : lookupFile fs p with
  | none => rw [hl] at h; simp at h
  | some e0 =>
    rw [hl] at h
    simp only [] at h
    refine ⟨e0, e, rfl, hshape, ?_⟩
    intro c hk
    split at h
    · simp at h
    · rename_i fsa heq
      split at heq
      · unfold _update_jpeg_date at heq
        rw [hl] at heq
        simp [hk] at heq
      · split at heq
        · unfold _update_movie_date at heq
          split at heq
          · simp at heq
          · rw [hl] at heq
            simp [hk] at heq
        · simp at heq

theorem jpegStamp_dateTimeOriginal (ex0 : Option ExifData) (d : String) :
    (jpegStamp ex0 d).dateTimeOriginal = some d := by
  unfold jpegStamp
  simp only []
  split <;> simp

/-- Claim C2 (amended): after every successful non-dry-run update of a
`.mov`/`.mp4` file, the container's creation-date tag (and the secondary
modification-date tag) holds `capture_time` — not `creation_time` —
formatted as `YYYY-MM-DDTHH:MM:SS` local time, the filesystem modify time
equals `capture_time` in epoch seconds, and `creation_time` instead lands in
the platform creation-time attribute. -/
theorem claim2_movie_update_effects (cfg : Config) (fs : FS) (p : String)
    (capture_time creation_time : Int) (fs' : FS)
    (h : apply_timestamp_to_file cfg fs p capture_time creation_time false = (fs', true, ("")))
    (hext : pyLower (pySuffixOfPath p) = (".mov") ∨ pyLower (pySuffixOfPath p) = (".mp4")) :
    ∃ e, lookupFile fs' p = some e
      ∧ e.kind = .movie { day := some [isoFormat (fromtimestamp cfg.tzOffset capture_time)],
                          mod := some [isoFormat (fromtimestamp cfg.tzOffset capture_time)] }
      ∧ e.mtime = capture_time ∧ e.ctime = creation_time := by
  rcases apply_false_true_elim cfg fs p capture_time creation_time fs' ("") h
    with ⟨fsa, hupd, hcre, -⟩
  rcases update_date_taken_movie_trace cfg fs p capture_time fsa hupd hext
    with ⟨e0, tags, hl, hk, rfl⟩
  rcases update_creation_date_ok cfg _ p creation_time fs' hcre with ⟨e1, hl1, hw, rfl⟩
  rw [lookupFile_setFile_self fs p e0 _ hl, Option.some.injEq] at hl1
  subst hl1
  rw [setFile_setFile]
  refine ⟨_, lookupFile_setFile_self fs p e0 _ hl, ?_, ?_, ?_⟩ <;> simp

/-- Counterexample to claim C2 as stated: a successful non-dry-run update of
`d/clip.mov` with `capture_time = 0` and `creation_time = 86400` leaves the
creation-date tag holding the formatted capture time `1970-01-01T00:00:00`,
which is not the formatted creation time `1970-01-02T00:00:00`. -/
theorem claim2_counterexample :
    (apply_timestamp_to_file cfgStd fsMov ("d/clip.mov") 0 86400 false).2.1 = true
    ∧ movieDayOf (apply_timestamp_to_file cfgStd fsMov ("d/clip.mov") 0 86400 false).1 ("d/clip.mov")
        = some [("1970-01-01T00:00:00")]
    ∧ ¬ movieDayOf (apply_timestamp_to_file cfgStd fsMov ("d/clip.mov") 0 86400 false).1 ("d/clip.mov")
        = some [isoFormat (fromtimestamp cfgStd.tzOffset 86400)] := by
  refine ⟨rfl, rfl, fun hcontra => ?_⟩
  rw [show movieDayOf (apply_timestamp_to_file cfgStd fsMov ("d/clip.mov") 0 86400 false).1
      ("d/clip.mov") = some [("1970-01-01T00:00:00")] from rfl] at hcontra
  rw [show isoFormat (fromtimestamp cfgStd.tzOffset 86400) = ("1970-01-02T00:00:00") from rfl]
    at hcontra
  simp at hcontra

/-- Witness for the amended C2 at the concrete movie filesystem. -/
theorem claim2_movie_update_effects_witness :
    ∃ e, lookupFile (apply_timestamp_to_file cfgStd fsMov ("d/clip.mov") 0 86400 false).1
        ("d/clip.mov") = some e
      ∧ e.kind = .movie { day := some [isoFormat (fromtimestamp cfgStd.tzOffset 0)],
                          mod := some [isoFormat (fromtimestamp cfgStd.tzOffset 0)] }
      ∧ e.mtime = 0 ∧ e.ctime = 86400 :=
  claim2_movie_update_effects cfgStd fsMov ("d/clip.mov") 0 86400 _ rfl (Or.inl rfl)

/-- Claim C4: when `update_date_taken` completes but `update_creation_date`
raises (e.g. pywin32 unavailable), the pair is recorded as a failure whose
reason is the exception message, the sidecar is not deleted, and the
metadata/modify-time mutations already applied persist (the final state is
exactly the post-`update_date_taken` state). -/
theorem claim4_creation_failure_partial_effects (cfg : Config) (fs : FS) (j m : String)
    (pt ct : Int) (fs1 : FS) (msg : String)
    (hdry : cfg.dryRun = false)
    (hfind : find_matching_media cfg fs j = .ok (some m))
    (hparse : parse_timestamp_from_json fs j = .ok (some (pt, ct)))
    (hupd : update_date_taken cfg fs m pt = .ok fs1)
    (hcre : update_creation_date cfg fs1 m ct = .error msg) :
    processSidecar cfg fs j = (fs1, .ok (some { media_path := m
                                                json_path := j
                                                timestamp := pt
                                                updated := false
                                                reason := msg }))
    ∧ lookupFile fs1 j = lookupFile fs j
    ∧ (lookupFile fs j).isSome = true := by
  have happ : apply_timestamp_to_file cfg fs m pt ct cfg.dryRun = (fs1, false, msg) := by
    rw [hdry]
    unfold apply_timestamp_to_file
    simp [hupd, hcre]
  rcases parse_ok_some_shape fs j pt ct hparse with ⟨je, c, hlj, hkj⟩
  rcases update_date_taken_ok_full cfg fs m pt fs1 hupd with ⟨e0, e, hlm, hshape, hnk⟩
  have hne : ¬ j = m := by
    intro hjm
    rw [hjm, hlm, Option.some.injEq] at hlj
    exact hnk c (hlj ▸ hkj)
  refine ⟨?_, ?_, ?_⟩
  · unfold processSidecar
    rw [hfind]
    simp only [hparse, happ]
    by_cases hmsg : msg = ("dry-run")
    · subst hmsg
      simp
    · simp [hmsg]
  · rw [hshape, lookupFile_setFile_ne fs m j e hne]
  · rw [hlj]
    rfl

/-- Claim C8: after a successful non-dry-run scan update of a `.jpg`/`.jpeg`
pair, the media file's EXIF `DateTimeOriginal` equals `capture_time`
formatted as a local-time `YYYY:MM:DD HH:MM:SS` string, and the sidecar file
no longer exists. -/
theorem claim8_jpeg_update_effects (cfg : Config) (fs : FS) (j : String) (fs' : FS)
    (r : UpdateResult)
    (hdry : cfg.dryRun = false)
    (h : processSidecar cfg fs j = (fs', .ok (some r)))
    (hup : r.updated = true)
    (hext : pyLower (pySuffixOfPath r.media_path) = (".jpg")
          ∨ pyLower (pySuffixOfPath r.media_path) = (".jpeg")) :
    ∃ e ex, lookupFile fs' r.media_path = some e
      ∧ e.kind = .jpeg (some ex)
      ∧ ex.dateTimeOriginal = some (exifFormat (fromtimestamp cfg.tzOffset r.timestamp))
      ∧ lookupFile fs' r.json_path = none := by
  unfold processSidecar at h
  cases hfind : find_matching_media cfg fs j with
  | error e => rw [hfind] at h; simp at h
  | ok mo =>
    rw [hfind] at h
    cases mo with
    | none => simp at h
    | some m =>
      cases hparse : parse_timestamp_from_json fs j with
      | error e2 => rw [hparse] at h; simp at h
      | ok po =>
        rw [hparse] at h
        cases po with
        | none => simp at h
        | some ptct =>
          obtain ⟨pt, ct⟩ := ptct
          rw [hdry] at h
          simp only [] at h
          cases happ : apply_timestamp_to_file cfg fs m pt ct false with
          | mk fs1 rest =>
            obtain ⟨up, err⟩ := rest
            rw [happ] at h
            cases up with
            | false =>
              simp only [] at h
              split at h <;>
              · simp only [Prod.mk.injEq, Except.ok.injEq, Option.some.injEq] at h
                rw [← h.2] at hup
                simp at hup
            | true =>
              simp only [] at h
              simp only [Prod.mk.injEq, Except.ok.injEq, Option.some.injEq] at h
              obtain ⟨hfs', hr⟩ := h
              subst hfs'
              subst hr
              simp only [] at hext ⊢
              rcases apply_false_true_elim cfg fs m pt ct fs1 err happ with ⟨fsa, hupd, hcre, -⟩
              rcases update_date_taken_jpeg_trace cfg fs m pt fsa hupd hext
                with ⟨e0, ex0, hlm, hk, rfl⟩
              rcases update_creation_date_ok cfg _ m ct fs1 hcre with ⟨e1, hl1, hw, rfl⟩
              rw [lookupFile_setFile_self fs m e0 _ hlm, Option.some.injEq] at hl1
              subst hl1
              rw [setFile_setFile]
              rcases parse_ok_some_shape fs j pt ct hparse with ⟨je, c, hlj, hkj⟩
              have hne : ¬ m = j := by
                intro hmj
                rw [hmj, hlj, Option.some.injEq] at hlm
                rw [hlm] at hkj
                rw [hkj] at hk
                simp at hk
              refine ⟨{ mtime := pt
                        atime := pt
                        ctime := ct
                        kind := FileKind.jpeg (some (jpegStamp ex0
                          (exifFormat (fromtimestamp cfg.tzOffset pt)))) },
                jpegStamp ex0 (exifFormat (fromtimestamp cfg.tzOffset pt)), ?_, ?_, ?_, ?_⟩
              · unfold delete_json_file
                rw [lookupFile_delFile_ne _ j m hne,
                  lookupFile_setFile_self fs m e0 _ hlm]
              · simp
              · exact jpegStamp_dateTimeOriginal ex0 _
              · unfold delete_json_file
                exact lookupFile_delFile_self _ j

/-- Claim C1 contradicted by the code: a matched sidecar whose JSON payload
lacks the timestamp keys makes the scan abort.  `parse_timestamp_from_json`
returns `None`, the orchestrator unpacks it into two variables, and the
resulting `TypeError` is uncaught: no `no-timestamp` outcome is recorded and
no further sidecar is processed. -/
theorem claim1_scan_crashes_on_missing_timestamps :
    find_matching_media cfgStd fsJpegEmpty ("d/photo.jpg.json") = .ok (some ("d/photo.jpg"))
    ∧ scan_and_update cfgStd fsJpegEmpty [("d/photo.jpg.json")]
        = (fsJpegEmpty, .error ("TypeError: cannot unpack non-iterable NoneType object")) :=
  ⟨rfl, rfl⟩

/-- Counterexample to claim C7 as stated: in dry-run mode a matched pair
whose sidecar has no extractable timestamps produces no outcome at all (the
scan aborts before reaching the writer), so not every matched pair yields a
`dry-run` outcome. -/
theorem claim7_counterexample :
    cfgDry.dryRun = true
    ∧ find_matching_media cfgDry fsJpegEmpty ("d/photo.jpg.json") = .ok (some ("d/photo.jpg"))
    ∧ scan_and_update cfgDry fsJpegEmpty [("d/photo.jpg.json")]
        = (fsJpegEmpty, .error ("TypeError: cannot unpack non-iterable NoneType object")) :=
  ⟨rfl, rfl, rfl⟩

theorem processSidecar_dry (cfg : Config) (fs : FS) (j : String) (hdry : cfg.dryRun = true) :
    (processSidecar cfg fs j).1 = fs
    ∧ ∀ ro, (processSidecar cfg fs j).2 = .ok ro → ro = dryOutcome cfg fs j := by
  unfold processSidecar dryOutcome
  cases hfind : find_matching_media cfg fs j with
  | error e => simp
  | ok mo =>
    cases mo with
    | none => simp
    | some m =>
      cases hparse : parse_timestamp_from_json fs j with
      | error e => simp
      | ok po =>
        cases po with
        | none => simp
        | some ptct =>
          obtain ⟨pt, ct⟩ := ptct
          rw [hdry]
          unfold apply_timestamp_to_file
          simp

/-- Claim C7 (amended): with `--dry-run` set, the scan mutates nothing (the
final state equals the initial one even when the scan aborts), and when it
completes, it produces exactly one `dry-run` outcome per matched pair with
extractable timestamps (matched pairs without extractable timestamps abort
the scan instead of yielding a `dry-run` outcome — see C1). -/
theorem claim7_dry_run (cfg : Config) (fs : FS) (js : List String)
    (hdry : cfg.dryRun = true) :
    (scan_and_update cfg fs js).1 = fs
    ∧ ∀ rs, (scan_and_update cfg fs js).2 = .ok rs
        → rs = js.filterMap (dryOutcome cfg fs) := by
  induction js with
  | nil => simp [scan_and_update]
  | cons j rest ih =>
    have hstep := processSidecar_dry cfg fs j hdry
    unfold scan_and_update
    cases hp : processSidecar cfg fs j with
    | mk fs1 res =>
      have hfs1 : fs1 = fs := by rw [← hstep.1, hp]
      rw [hfs1]
      cases res with
      | error e => simp
      | ok ro =>
        have hro : ro = dryOutcome cfg fs j := hstep.2 ro (by rw [hp])
        simp only []
        cases hscan : scan_and_update cfg fs rest with
        | mk fs2 res2 =>
          have hfs2 : fs2 = fs := by rw [← ih.1, hscan]
          rw [hfs2]
          cases res2 with
          | error e => simp
          | ok rs =>
            have hrs : rs = rest.filterMap (dryOutcome cfg fs) := ih.2 rs (by rw [hscan])
            refine ⟨rfl, fun rs2 hrs2 => ?_⟩
            simp only [Except.ok.injEq] at hrs2
            rw [← hrs2, hro, hrs, List.filterMap_cons]
            cases dryOutcome cfg fs j <;> simp

/-- Witness for the amended C7 at a concrete dry-run over one good pair. -/
theorem claim7_dry_run_witness :
    (scan_and_update cfgDry fsJpeg [("d/photo.jpg.json")]).1 = fsJpeg
    ∧ ∀ rs, (scan_and_update cfgDry fsJpeg [("d/photo.jpg.json")]).2 = .ok rs
        → rs = [("d/photo.jpg.json")].filterMap (dryOutcome cfgDry fsJpeg) :=
  claim7_dry_run cfgDry fsJpeg [("d/photo.jpg.json")] rfl

/-- Claim C9: the process exit code is 2 when the archive path is missing or
not a regular file, or when directory creation or extraction fails; when
those all succeed and the scan completes, the exit code is 1 exactly when
some outcome is a failure whose reason is other than `dry-run`/`no-timestamp`
(per the data model, a reason code attaches to unsuccessful outcomes), and 0
otherwise. -/
theorem claim9_exit_codes (env : MainEnv) :
    ((env.zipExists = false ∨ env.zipIsFile = false ∨ env.mkdirOk = false
        ∨ env.extractOk = false) → mainModel env = .ok 2)
    ∧ (env.zipExists = true → env.zipIsFile = true → env.mkdirOk = true → env.extractOk = true →
        ∀ fs' rs, scan_and_update env.cfg env.fs env.jsonPaths = (fs', .ok rs) →
          mainModel env = .ok (if rs.any (fun r => isFailureOutcome r) then 1 else 0)) := by
  constructor
  · intro hfatal
    unfold mainModel
    rcases hfatal with h | h | h | h <;> simp [h]
  · intro h1 h2 h3 h4 fs' rs hscan
    unfold mainModel
    rw [h1, h2, h3, h4, hscan]
    simp only [Bool.not_true, Bool.false_eq_true, if_false]
    congr 1
    cases hany : rs.any (fun r => isFailureOutcome r) with
    | false =>
      have hcount : rs.countP (fun r => isFailureOutcome r) = 0 := by
        rw [List.countP_eq_zero]
        intro a ha hpa
        rw [List.any_eq_false] at hany
        exact hany a ha hpa
      simp [hcount]
    | true =>
      have hcount : ¬ rs.countP (fun r => isFailureOutcome r) = 0 := by
        rw [List.countP_eq_zero]
        rw [List.any_eq_true] at hany
        rcases hany with ⟨a, ha, hpa⟩
        exact fun hall => hall a ha hpa
      simp [hcount]

/-- Witness for C9 at a concrete environment with a successful scan. -/
theorem claim9_exit_codes_witness :
    mainModel ⟨true, true, true, true, cfgStd, fsJpeg, [("d/photo.jpg.json")]⟩
      = .ok (if [recJpegSuccess].any (fun r => isFailureOutcome r) then 1 else 0) :=
  (claim9_exit_codes ⟨true, true, true, true, cfgStd, fsJpeg, [("d/photo.jpg.json")]⟩).2
    rfl rfl rfl rfl
    (scan_and_update cfgStd fsJpeg [("d/photo.jpg.json")]).1 [recJpegSuccess] rfl

theorem commonpath_eq_left (a b : List String) (h : commonpath a b = a) :
    ∃ r, b = a ++ r := by
  induction a generalizing b with
  | nil => exact ⟨b, rfl⟩
  | cons x xs ih =>
    cases b with
    | nil => simp [commonpath] at h
    | cons y ys =>
      unfold commonpath at h
      by_cases hxy : x = y
      · rw [if_pos hxy, List.cons.injEq] at h
        rcases ih ys h.2 with ⟨r, hr⟩
        refine ⟨r, ?_⟩
        subst hxy
        rw [hr]
        rfl
      · rw [if_neg hxy] at h
        simp at h

/-- Claim C10: safe extraction writes no file outside the destination root —
every written path resolves to a path extending the resolved destination;
absolute and traversal-escaping members contribute nothing. -/
theorem claim10_no_escape (destination : List String) (members : List ZipMember)
    (p : List String) (hp : p ∈ safe_extract_zip destination members) :
    ∃ r, resolveSegs p = resolveSegs destination ++ r := by
  unfold safe_extract_zip at hp
  rw [List.mem_filterMap] at hp
  rcases hp with ⟨member, hmem, hsome⟩
  cases habs : pyStartsWith (pyReplace member.filename '\\' '/') '/' with
  | true => simp [habs] at hsome
  | false =>
    simp only [habs, Bool.false_eq_true, if_false] at hsome
    cases hwithin : _is_within_directory destination
        (destination ++ pathlibSegs (pyReplace member.filename '\\' '/')) with
    | false => simp [hwithin] at hsome
    | true =>
      cases hdir : member.is_dir with
      | true => simp [hwithin, hdir] at hsome
      | false =>
        simp only [hwithin, Bool.true_eq_false, not_false_eq_true, hdir, if_true, if_false,
          not_true, Bool.false_eq_true, Option.some.injEq, reduceIte] at hsome
        unfold _is_within_directory at hwithin
        rw [beq_iff_eq] at hwithin
        rw [← hsome]
        exact commonpath_eq_left _ _ hwithin

/-- Witness for C10: the surviving written path of the sample extraction
stays under the destination. -/
theorem claim10_no_escape_witness :
    ∃ r, resolveSegs [("root"), ("dest"), ("ok"), ("file.txt")]
      = resolveSegs [("root"), ("dest")] ++ r :=
  claim10_no_escape [("root"), ("dest")] zipMembersSample
    [("root"), ("dest"), ("ok"), ("file.txt")] (by decide)

/-- Witness for C4: on a non-Windows host the creation-time write raises,
the pair is recorded as a failure carrying the pywin32 message, and the
sidecar survives while the metadata/mtime mutations persist. -/
theorem claim4_creation_failure_partial_effects_witness :
    processSidecar cfgNoWin fsJpeg ("d/photo.jpg.json") = (fsJpegUpdated,
      .ok (some { media_path := ("d/photo.jpg")
                  json_path := ("d/photo.jpg.json")
                  timestamp := 100
                  updated := false
                  reason := ("pywin32 is required for Windows. Install with: pip install pywin32") }))
    ∧ lookupFile fsJpegUpdated ("d/photo.jpg.json") = lookupFile fsJpeg ("d/photo.jpg.json")
    ∧ (lookupFile fsJpeg ("d/photo.jpg.json")).isSome = true :=
  claim4_creation_failure_partial_effects cfgNoWin fsJpeg ("d/photo.jpg.json") ("d/photo.jpg")
    100 200 fsJpegUpdated ("pywin32 is required for Windows. Install with: pip install pywin32")
    rfl rfl rfl rfl rfl

/-- Witness for C8 at the concrete jpeg pair. -/
theorem claim8_jpeg_update_effects_witness :
    ∃ e ex, lookupFile (processSidecar cfgStd fsJpeg ("d/photo.jpg.json")).1
        recJpegSuccess.media_path = some e
      ∧ e.kind = .jpeg (some ex)
      ∧ ex.dateTimeOriginal = some (exifFormat (fromtimestamp cfgStd.tzOffset recJpegSuccess.timestamp))
      ∧ lookupFile (processSidecar cfgStd fsJpeg ("d/photo.jpg.json")).1
          recJpegSuccess.json_path = none :=
  claim8_jpeg_update_effects cfgStd fsJpeg ("d/photo.jpg.json")
    (processSidecar cfgStd fsJpeg ("d/photo.jpg.json")).1 recJpegSuccess
    rfl rfl rfl (Or.inl rfl)
